import Mathlib

/-!
# rapina: account values and sector averages (`reports/db.go`)

A shallow embedding of `reports/db.go` and of the library behaviour it relies
on (`fmt.Sprintf("%d")`, `time.Parse` with layout `2006-01-02`, `time.Date`,
`errors.Wrap`, `database/sql` row scanning, `fuzzy.MatchFold`,
`fuzzy.RankFindFold`), followed by theorems about the embedded functions.

Conventions.
* Go `int` is 64 bits wide: values are `Int`, and `wrapInt64` is applied where
  the source does arithmetic on a year.
* Go strings are modelled as sequences of Unicode scalar values (`String`,
  `List Char`); byte lengths are UTF-8 lengths.
* A Go `error` result is `Option GoError`, `none` being `nil`.
* Every function that talks to a collaborator returns, next to its results,
  the list of calls it made (`Event`), oldest first.
-/

namespace Rapina

/-! ## Machine integers and errors -/

/-- Two's-complement wrap of an integer into the range of Go's `int64`. -/
def wrapInt64 (x : Int) : Int := (x + 2 ^ 63) % 2 ^ 64 - 2 ^ 63

/-- Wrap of an integer into the range of Go's `uint64`. -/
def wrapUint64 (x : Int) : Int := x % 2 ^ 64

/-- The Go `error` values that occur in `reports/db.go`. -/
inductive GoError where
  /-- A `*time.ParseError` for the given input text. -/
  | parseError (value : String)
  /-- An error reported by `database/sql` (query execution or `Scan`). -/
  | sql (msg : String)
  /-- An error reported by a collaborator outside `db.go`. -/
  | external (msg : String)
  /-- The result of `errors.Errorf(msg)`. -/
  | errorf (msg : String)
  /-- The result of `errors.Wrap(cause, msg)` for a non-nil `cause`. -/
  | withMessage (cause : GoError) (msg : String)
  deriving DecidableEq, Repr

/-- `errors.Wrap(err, msg)` of `github.com/pkg/errors`: "If err is nil, Wrap
returns nil." -/
def errorsWrap : Option GoError → String → Option GoError
  | none, _ => none
  | some e, msg => some (GoError.withMessage e msg)

/-! ## `fmt.Sprintf("%d-01-01", y)` -/

/-- The ASCII digit for `d < 10`. -/
def digitChar (d : Nat) : Char := Char.ofNat (48 + d)

/-- The digit loop of `fmt`: `for u >= 10 { buf[i] = '0' + u%10; u /= 10 }`,
then the leading digit. The first argument bounds the number of iterations and
is always given a value at least `u`, so that it never runs out. -/
def fmtDigits : Nat → Nat → List Char → List Char
  | 0, u, acc => digitChar u :: acc
  | fuel + 1, u, acc =>
    if 10 ≤ u then fmtDigits fuel (u / 10) (digitChar (u % 10) :: acc)
    else digitChar u :: acc

/-- The verb `%d` applied to a Go `int`. -/
def fmtInt (x : Int) : List Char :=
  if x < 0 then '-' :: fmtDigits x.natAbs x.natAbs []
  else fmtDigits x.natAbs x.natAbs []

/-- The text `fmt.Sprintf("%d-01-01", y)`. -/
def sprintfJan1 (y : Int) : List Char := fmtInt y ++ ['-', '0', '1', '-', '0', '1']

/-! ## `time.Parse("2006-01-02", value)` and `Time.Unix` -/

/-- `isDigit(s, i)` of `time/format.go`. -/
def isDigit (s : List Char) (i : Nat) : Bool :=
  match s.get? i with
  | none => false
  | some c => '0' ≤ c && c ≤ '9'

/-- `leadingInt` of `time/format.go`: consumes the leading digits of `s`,
accumulating into `x`; `none` is the overflow error. -/
def leadingInt : List Char → Int → Option (Int × List Char)
  | [], x => some (x, [])
  | c :: s, x =>
    if c < '0' || c > '9' then some (x, c :: s)
    else if x > (2 ^ 63 - 1) / 10 then none
    else
      let x1 := wrapInt64 (x * 10 + (c.toNat : Int) - 48)
      if x1 < 0 then none else leadingInt s x1

/-- `atoi` of `time/format.go`; `none` is `atoiError`. -/
def atoi (s : List Char) : Option Int :=
  let neg := match s with
    | c :: _ => c == '-'
    | [] => false
  let s1 := match s with
    | c :: t => if c == '-' || c == '+' then t else c :: t
    | [] => []
  match leadingInt s1 0 with
  | none => none
  | some (q, rem) =>
    if rem ≠ [] then none else some (if neg then -q else q)

/-- `getnum(s, fixed)` of `time/format.go`. -/
def getnum (s : List Char) (fixed : Bool) : Option (Int × List Char) :=
  if !isDigit s 0 then none
  else if !isDigit s 1 then
    if fixed then none
    else match s with
      | c :: t => some ((c.toNat : Int) - 48, t)
      | [] => none
  else match s with
    | c0 :: c1 :: t => some (((c0.toNat : Int) - 48) * 10 + ((c1.toNat : Int) - 48), t)
    | _ => none

/-- `skip(value, "-")` of `time/format.go`, for the one-byte prefix `-` that
separates the fields of the layout. -/
def skipDash (value : List Char) : Option (List Char) :=
  match value with
  | [] => none
  | c :: t => if c ≠ '-' then none else some t

/-- `isLeap(year)` of package `time`. -/
def isLeap (year : Int) : Bool :=
  year % 4 == 0 && (year % 100 != 0 || year % 400 == 0)

/-- The table `daysBefore` of package `time`. -/
def daysBefore : List Int :=
  [0, 31, 59, 90, 120, 151, 181, 212, 243, 273, 304, 334, 365]

/-- `daysIn(m, year)` of package `time`, for `1 ≤ m ≤ 12`. -/
def daysIn (m : Int) (year : Int) : Int :=
  if m == 2 && isLeap year then 29
  else daysBefore.getD m.toNat 0 - daysBefore.getD (m.toNat - 1) 0

/-- `absoluteZeroYear` of package `time`. -/
def absoluteZeroYear : Int := -292277022399

/-- `absoluteToInternal + internalToUnix` of package `time`, in seconds. -/
def absoluteToUnix : Int := -9223371966579724800 + -62135596800

/-- `daysSinceEpoch(year)` of package `time`, on `uint64`. -/
def daysSinceEpoch (year : Int) : Int :=
  let y := wrapUint64 (year - absoluteZeroYear)
  let n := y / 400
  let y := y - 400 * n
  let d := 146097 * n
  let n := y / 100
  let y := y - 100 * n
  let d := d + 36524 * n
  let n := y / 4
  let y := y - 4 * n
  let d := d + 1461 * n
  let n := y
  d + 365 * n

/-- `norm(hi, lo, base)` of package `time`. -/
def norm (hi lo base : Int) : Int × Int :=
  let (hi, lo) :=
    if lo < 0 then
      let n := (-lo - 1) / base + 1
      (hi - n, lo + n * base)
    else (hi, lo)
  if lo ≥ base then
    let n := lo / base
    (hi + n, lo - n * base)
  else (hi, lo)

/-- `time.Date(year, month, day, 0, 0, 0, 0, time.UTC).Unix()`: the seconds
since 1 January 1970 UTC of midnight of the given date, computed as package
`time` does (hour, minute, second and nanosecond are zero, so their
normalisation steps do nothing and are left out). -/
def dateUnix (year month day : Int) : Int :=
  let m := month - 1
  let (year, m) := norm year m 12
  let month := m + 1
  let d := daysSinceEpoch year
  let d := wrapUint64 (d + daysBefore.getD (month - 1).toNat 0)
  let d := if isLeap year && month ≥ 3 then wrapUint64 (d + 1) else d
  let d := wrapUint64 (d + wrapUint64 (day - 1))
  let abs := wrapUint64 (d * 86400)
  wrapInt64 (wrapInt64 abs + absoluteToUnix)

/-- `time.Parse("2006-01-02", value)` followed by `.Unix()`. The layout has the
chunks `2006`, `-`, `01`, `-`, `02`; the result is the parse error or the Unix
time of the parsed date. -/
def timeParse (value : List Char) : Except GoError Int :=
  let bad : Except GoError Int := Except.error (GoError.parseError (String.mk value))
  -- stdLongYear
  if value.length < 4 || !isDigit value 0 then bad else
  match atoi (value.take 4) with
  | none => bad
  | some year =>
  match skipDash (value.drop 4) with
  | none => bad
  | some v1 =>
  -- stdZeroMonth
  match getnum v1 true with
  | none => bad
  | some (month, v2) =>
  if month ≤ 0 || 12 < month then bad else
  match skipDash v2 with
  | none => bad
  | some v3 =>
  -- stdZeroDay
  match getnum v3 true with
  | none => bad
  | some (day, v4) =>
  if v4.length ≠ 0 then bad else
  if day < 1 || day > daysIn month year then bad else
  Except.ok (dateUnix year month day)

/-! ## The store -/

/-- A Go `float32`, carried as its IEEE-754 bit pattern. `db.go` only stores
and copies such values; the zero value has pattern `0`. -/
structure Float32 where
  bits : Nat
  deriving DecidableEq, Repr

/-- A row of table `dfp`, with the columns that `db.go` filters on or scans.
`code` and `vlConta` hold what `Rows.Scan` converts the columns `CODE` and
`VL_CONTA` to for a `*uint32` and a `*float32` destination, `none` when the
conversion fails (a `NULL`, a value out of range). The other three columns
take part in the `WHERE` clause, which a `NULL` never passes. -/
structure DfpRow where
  code : Option Nat
  denomCia : String
  ordemExerc : String
  dtRefer : Int
  vlConta : Option Float32
  deriving DecidableEq, Repr

/-- The struct `accItems`. -/
structure accItems where
  code : Nat
  cdConta : String
  dsConta : String
  deriving DecidableEq, Repr

/-- A row of the aggregation statement of `accountsAverage`: what `Scan`
converts `CODE` and `AVG(VL_CONTA)` to, `none` when the conversion fails. -/
structure AvgRow where
  code : Option Nat
  mdConta : Option Float32
  deriving DecidableEq, Repr

/-- The SQL statements of `db.go`. Each constructor stands for the statement
text that `fmt.Sprintf` builds from the arguments shown. The names are spliced
into the text between double quotes as they are: the clauses written below
are those of the text when the names hold no double quote, and a name that
holds one ends the literal early, the rest of the name being read as SQL. -/
inductive Query where
  /-- `SELECT DISTINCT CODE, CD_CONTA, DS_CONTA FROM dfp WHERE DENOM_CIA LIKE
  "company%" AND ORDEM_EXERC LIKE "_LTIMO" ORDER BY CD_CONTA, DS_CONTA`. -/
  | selectItems (company : String)
  /-- `SELECT CODE, DENOM_CIA, ORDEM_EXERC, DT_REFER, VL_CONTA FROM dfp WHERE
  DENOM_CIA LIKE "company%" AND ORDEM_EXERC LIKE "period" AND DT_REFER >= t0
  AND DT_REFER < t1`. -/
  | selectReport (company period : String) (t0 t1 : Int)
  /-- `SELECT CODE, ORDEM_EXERC, AVG(VL_CONTA) FROM dfp WHERE DENOM_CIA IN
  (listed) AND ORDEM_EXERC LIKE "period" AND DT_REFER >= t0 AND DT_REFER < t1
  GROUP BY CODE, ORDEM_EXERC`. -/
  | selectAverage (listed : List String) (period : String) (t0 t1 : Int)
  /-- `SELECT MIN(year of DT_REFER), MAX(year of DT_REFER) FROM dfp`. -/
  | selectYears
  deriving DecidableEq, Repr

/-- A call made to a collaborator. -/
inductive Event where
  /-- A call `parsers.FromSector(company, yamlFile)`. -/
  | fromSector (company yamlFile : String)
  /-- A call `ListCompanies(db)`. -/
  | listCompanies
  /-- A call `db.Query(q)`. -/
  | query (q : Query)
  deriving DecidableEq, Repr

/-- The store behind `*sql.DB`, as far as `db.go` observes it.
* `dfp`: the rows of table `dfp`, in the order in which the engine returns
  them for a statement without `ORDER BY`.
* `queryErr q`: the error with which `db.Query(q)` fails, `none` when the
  statement executes.
* `spliced company period t0 t1`: the rows of `Query.selectReport`, as `dfp`
  rows, when `company` or `period` holds a double quote, so that the text is
  another statement than the one `reportFilter` describes.
* `items company`: the rows of `Query.selectItems company`, each as the
  outcome of scanning it into an `accItems`.
* `averages`: the rows of `Query.selectAverage`.
* `years`: the rows of `Query.selectYears`, each column as `Scan` converts it
  for a `*int` destination (`none` for the `NULL` of an empty table).
* `listCompanies`: the outcome of `ListCompanies(db)`, a function of package
  `reports` defined outside `db.go`. -/
structure DB where
  dfp : List DfpRow
  queryErr : Query → Option GoError
  spliced : String → String → Int → Int → List DfpRow
  items : String → List (Except GoError accItems)
  averages : List String → String → Int → Int → List AvgRow
  years : List (Option Int × Option Int)
  listCompanies : Except GoError (List String)

/-- The struct `report`: the database handle and the sector file. -/
structure report where
  db : DB
  yamlFile : String

/-- The results of a call together with the collaborator calls it made. -/
structure Call (α : Type) where
  result : α
  trace : List Event

/-- How a Go call ends: it returns, or it panics with a value. -/
inductive Outcome (α : Type) where
  | returned (result : α) (trace : List Event)
  | panicked (value : GoError) (trace : List Event)

/-- SQLite's `sqlite3Tolower` on a character: ASCII letters only. -/
def asciiLower (c : Char) : Char :=
  if 'A' ≤ c ∧ c ≤ 'Z' then Char.ofNat (c.toNat + 32) else c

/-- SQLite's `LIKE` (default settings, no `ESCAPE`): `%` matches any run of
characters, `_` matches exactly one character, any other pattern character
matches itself, ASCII letters without regard to case. -/
def sqlLike : List Char → List Char → Bool
  | [], t => t.isEmpty
  | a :: p, t =>
    if a = '%' then t.tails.any (fun s => sqlLike p s)
    else match t with
      | [] => false
      | c :: s => (a = '_' || asciiLower a = asciiLower c) && sqlLike p s

/-- The `WHERE` clause of `Query.selectReport` for names without a double
quote. -/
def reportFilter (company period : String) (t0 t1 : Int) (row : DfpRow) : Bool :=
  sqlLike (company.data ++ ['%']) row.denomCia.data
    && sqlLike period.data row.ordemExerc.data
    && decide (t0 ≤ row.dtRefer) && decide (row.dtRefer < t1)

/-- The call `db.Query` on `Query.selectItems company`. -/
def DB.selectItems (db : DB) (company : String) :
    Except GoError (List (Except GoError accItems)) :=
  match db.queryErr (Query.selectItems company) with
  | some e => Except.error e
  | none => Except.ok (db.items company)

/-- The call `db.Query` on `Query.selectReport company period t0 t1`. When
neither name holds a double quote the statement selects the rows of `dfp` that
pass `reportFilter`; otherwise the text is a different statement, and its rows
are those the store gives in `spliced`. -/
def DB.selectReport (db : DB) (company period : String) (t0 t1 : Int) :
    Except GoError (List DfpRow) :=
  match db.queryErr (Query.selectReport company period t0 t1) with
  | some e => Except.error e
  | none =>
    if '"' ∈ company.data ∨ '"' ∈ period.data then Except.ok (db.spliced company period t0 t1)
    else Except.ok (db.dfp.filter (reportFilter company period t0 t1))

/-- The call `db.Query` on `Query.selectAverage listed period t0 t1`. -/
def DB.selectAverage (db : DB) (listed : List String) (period : String) (t0 t1 : Int) :
    Except GoError (List AvgRow) :=
  match db.queryErr (Query.selectAverage listed period t0 t1) with
  | some e => Except.error e
  | none => Except.ok (db.averages listed period t0 t1)

/-- The call `db.Query` on `Query.selectYears`. -/
def DB.selectYears (db : DB) : Except GoError (List (Option Int × Option Int)) :=
  match db.queryErr Query.selectYears with
  | some e => Except.error e
  | none => Except.ok db.years

/-! ## Go maps -/

/-- A `map[uint32]float32`: the entries, one per key. A nil map and an empty
map are both `[]`; they agree on every read. -/
abbrev GoMap := List (Nat × Float32)

/-- The assignment `m[k] = v`. -/
def mapSet (m : GoMap) (k : Nat) (v : Float32) : GoMap :=
  (k, v) :: m.filter (fun e => e.1 != k)

/-- The lookup `v, ok := m[k]`. -/
def mapGet (m : GoMap) (k : Nat) : Option Float32 := m.lookup k

/-! ## `accountsItems` -/

/-- The loop `for rows.Next()` of `accountsItems`: a failing `Scan` returns
the items gathered so far with the error. -/
def scanItems : List (Except GoError accItems) → List accItems → List accItems × Option GoError
  | [], items => (items, none)
  | Except.error e :: _, items => (items, some e)
  | Except.ok item :: rows, items => scanItems rows (items ++ [item])

/-- The method `report.accountsItems`. -/
def accountsItems (r : report) (company : String) :
    Outcome (List accItems × Option GoError) :=
  let q := Query.selectItems company
  match r.db.selectItems company with
  | Except.error e => Outcome.panicked e [Event.query q]
  | Except.ok rows => Outcome.returned (scanItems rows []) [Event.query q]

/-! ## `accountsValues` -/

/-- The fields of struct `account` that the loops write: `code`, `vlConta`. -/
structure account where
  code : Nat
  vlConta : Float32
  deriving DecidableEq, Repr

/-- The call `rows.Scan(&st.code, &denomCia, &orderExec, &dtRefer, &st.vlConta)`,
whose error is ignored: destinations are assigned in order up to the first
column that fails to convert. -/
def scanReport (st : account) (row : DfpRow) : account :=
  match row.code with
  | none => st
  | some c =>
    match row.vlConta with
    | none => { st with code := c }
    | some v => { code := c, vlConta := v }

/-- The loop `for rows.Next()` of `accountsValues`: scan, then
`values[st.code] = st.vlConta`. -/
def reportLoop : List DfpRow → account → GoMap → GoMap
  | [], _, values => values
  | row :: rows, st, values =>
    let st1 := scanReport st row
    reportLoop rows st1 (mapSet values st1.code st1.vlConta)

/-- The method `report.accountsValues`. -/
def accountsValues (r : report) (company : String) (year : Int) (penult : Bool) :
    Call (GoMap × Option GoError) :=
  let period := if penult then "PEN_LTIMO" else "_LTIMO"
  let year := if penult then wrapInt64 (year + 1) else year
  let invalid (e : GoError) : Call (GoMap × Option GoError) :=
    ⟨([], errorsWrap (some e) ("data invalida " ++ String.mk (fmtInt year))), []⟩
  match timeParse (sprintfJan1 year) with
  | Except.error e => invalid e
  | Except.ok t0 =>
  match timeParse (sprintfJan1 (wrapInt64 (year + 1))) with
  | Except.error e => invalid e
  | Except.ok t1 =>
  let q := Query.selectReport company period t0 t1
  match r.db.selectReport company period t0 t1 with
  | Except.error e => ⟨([], some e), [Event.query q]⟩
  | Except.ok rows => ⟨(reportLoop rows ⟨0, ⟨0⟩⟩ [], none), [Event.query q]⟩

/-! ## `timeRange` -/

/-- The call `rows.Scan(&begin, &end)`, whose error is ignored. -/
def scanYears (st : Int × Int) (row : Option Int × Option Int) : Int × Int :=
  match row.1 with
  | none => st
  | some b =>
    match row.2 with
    | none => (b, st.2)
    | some e => (b, e)

/-- The method `report.timeRange`. After a successful `db.Query` the named
result `err` is nil, and it is this `err` that the year check wraps. -/
def timeRange (r : report) : Call (Int × Int × Option GoError) :=
  match r.db.selectYears with
  | Except.error e =>
    ⟨(0, 0, errorsWrap (some e) "falha ao ler banco de dados"), [Event.query Query.selectYears]⟩
  | Except.ok rows =>
    let err : Option GoError := none
    let (begin, endY) := rows.foldl scanYears (0, 0)
    if begin < 1900 || begin > 2100 || endY < 1900 || endY > 2100 then
      ⟨(begin, endY, errorsWrap err "ano inválido"), [Event.query Query.selectYears]⟩
    else if begin > endY then
      ⟨(endY, begin, err), [Event.query Query.selectYears]⟩
    else
      ⟨(begin, endY, err), [Event.query Query.selectYears]⟩

/-! ## Libraries behind `accountsAverage` -/

/-- The struct `fuzzy.Rank`. -/
structure Rank where
  Source : String
  Target : String
  Distance : Nat
  OriginalIndex : Nat
  deriving DecidableEq, Repr

/-- What `accountsAverage` takes from outside `db.go` and cannot be written
out here: the Unicode data behind `unicode.ToLower`, `norm.NFD`, `norm.NFC` and
`unicode.Mn`; `sort.Sort` on `fuzzy.Ranks`, which orders by `Distance` and
leaves the order of equal elements open; and `parsers.FromSector`, which
returns candidate names and an error. -/
structure Env where
  toLower : Char → Char
  nfd : List Char → List Char
  nfc : List Char → List Char
  isMn : Char → Bool
  sortRanks : List Rank → List Rank
  fromSector : String → String → List String × Option GoError

/-- The function `removeDiacritics`: the chain `norm.NFD`,
`transform.RemoveFunc(isMn)`, `norm.NFC` applied to `original`. -/
def removeDiacritics (env : Env) (original : String) : String :=
  String.mk (env.nfc ((env.nfd original.data).filter (fun r => !env.isMn r)))

/-- The length `len(s)` of a Go string: its number of UTF-8 bytes. -/
def byteLen (s : List Char) : Nat := (s.map Char.utf8Size).sum

/-- The inner loop of `match` in package `fuzzy`: the part of `target` after
the first occurrence of `r1`, if there is one. -/
def dropThrough (r1 : Char) : List Char → Option (List Char)
  | [] => none
  | r2 :: target => if r1 = r2 then some target else dropThrough r1 target

/-- The loop `Outer` of `match` in package `fuzzy`. -/
def matchLoop : List Char → List Char → Bool
  | [], _ => true
  | r1 :: source, target =>
    match dropThrough r1 target with
    | none => false
    | some rest => matchLoop source rest

/-- The function `match(source, target, foldTransformer)` of package `fuzzy`:
both strings are lower-cased rune by rune, then compared. -/
def fuzzyMatchFold (env : Env) (source target : String) : Bool :=
  let source := source.data.map env.toLower
  let target := target.data.map env.toLower
  let lenDiff : Int := (byteLen target : Int) - (byteLen source : Int)
  if lenDiff < 0 then false
  else if lenDiff = 0 ∧ source = target then true
  else matchLoop source target

/-- The inner loop of `fuzzy.LevenshteinDistance` for one rune `c2` of the
target: the arguments are the rest of the source, the rest of the old column,
`lastDiag` and the entry just written. -/
def levInner : List Char → Char → List Nat → Nat → Nat → List Nat
  | c1 :: r1, c2, old :: column, lastDiag, left =>
    let cost := if c1 ≠ c2 then 1 else 0
    let v := min (min (old + 1) (left + 1)) (lastDiag + cost)
    v :: levInner r1 c2 column old v
  | _, _, _, _, _ => []

/-- The outer loop of `fuzzy.LevenshteinDistance`, at column `x`. -/
def levOuter (r1 : List Char) : List Char → Nat → List Nat → List Nat
  | [], _, column => column
  | c2 :: r2, x, column =>
    levOuter r1 r2 (x + 1) (x :: levInner r1 c2 column.tail (x - 1) x)

/-- The function `fuzzy.LevenshteinDistance(s, t)`. -/
def LevenshteinDistance (s t : String) : Nat :=
  (levOuter s.data t.data 1 (List.range (s.data.length + 1))).getLastD 0

/-- The loop of `rankFind` in package `fuzzy`, from index `index` on. -/
def rankFindFrom (env : Env) (source : String) : List String → Nat → List Rank
  | [], _ => []
  | target :: targets, index =>
    if fuzzyMatchFold env source target then
      ⟨source, target, LevenshteinDistance source target, index⟩
        :: rankFindFrom env source targets (index + 1)
    else rankFindFrom env source targets (index + 1)

/-- The function `fuzzy.RankFindFold(source, targets)`. -/
def RankFindFold (env : Env) (source : String) (targets : List String) : List Rank :=
  rankFindFrom env source targets 0

/-! ## `accountsAverage` -/

/-- The body of the loop `for _, co := range companies` of `accountsAverage`:
what one candidate adds to `listedCompanies` (`matched` is the slice
`matches` of the source). `sort.Sort` rearranges `rank`, so
`rank[0]` exists after it whenever `rank` is not empty. -/
def matchCandidate (env : Env) (com : List String) (co : String) : List String :=
  let co := removeDiacritics env co
  let matched := com.filter (fun c => fuzzyMatchFold env co (removeDiacritics env c))
  if matched.length > 0 then
    let rank := RankFindFold env co matched
    if rank.length > 0 then
      match env.sortRanks rank with
      | r0 :: _ => [r0.Target]
      | [] => []
    else []
  else []

/-- The slice `listedCompanies` that `accountsAverage` builds from the
candidates `companies` and the stored names `com`. -/
def listedCompanies (env : Env) (com : List String) : List String → List String
  | [] => []
  | co :: companies => matchCandidate env com co ++ listedCompanies env com companies

/-- The call `rows.Scan(&st.code, &orderExec, &st.vlConta)`, whose error is
ignored. -/
def scanAverage (st : account) (row : AvgRow) : account :=
  match row.code with
  | none => st
  | some c =>
    match row.mdConta with
    | none => { st with code := c }
    | some v => { code := c, vlConta := v }

/-- The loop `for rows.Next()` of `accountsAverage`. -/
def averageLoop : List AvgRow → account → GoMap → GoMap
  | [], _, values => values
  | row :: rows, st, values =>
    let st1 := scanAverage st row
    averageLoop rows st1 (mapSet values st1.code st1.vlConta)

/-- The method `report.accountsAverage`. The error of `parsers.FromSector` is
assigned to the blank identifier. -/
def accountsAverage (env : Env) (r : report) (company : String) (year : Int)
    (penult : Bool) : Call (GoMap × Option GoError) :=
  let sector := Event.fromSector company r.yamlFile
  let companies := (env.fromSector company r.yamlFile).1
  if companies.length ≤ 1 then ⟨([], none), [sector]⟩ else
  match r.db.listCompanies with
  | Except.error e =>
    ⟨([], errorsWrap (some e) "erro ao listar empresas"), [sector, Event.listCompanies]⟩
  | Except.ok com =>
  let listed := listedCompanies env com companies
  if listed.length = 0 then
    ⟨([], some (GoError.errorf "erro ao procurar empresas")), [sector, Event.listCompanies]⟩
  else
  let period := if penult then "PEN_LTIMO" else "_LTIMO"
  let year := if penult then wrapInt64 (year + 1) else year
  let invalid (e : GoError) : Call (GoMap × Option GoError) :=
    ⟨([], errorsWrap (some e) ("data invalida " ++ String.mk (fmtInt year))),
      [sector, Event.listCompanies]⟩
  match timeParse (sprintfJan1 year) with
  | Except.error e => invalid e
  | Except.ok t0 =>
  match timeParse (sprintfJan1 (wrapInt64 (year + 1))) with
  | Except.error e => invalid e
  | Except.ok t1 =>
  let q := Query.selectAverage listed period t0 t1
  match r.db.selectAverage listed period t0 t1 with
  | Except.error e => ⟨([], some e), [sector, Event.listCompanies, Event.query q]⟩
  | Except.ok rows =>
    ⟨(averageLoop rows ⟨0, ⟨0⟩⟩ [], none), [sector, Event.listCompanies, Event.query q]⟩

/-! ## An environment for examples -/

/-- Canonical decompositions of some accented Latin letters: the letter, its
base letter and its combining mark. -/
def latinTable : List (Char × Char × Char) :=
  [('á', 'a', Char.ofNat 0x301), ('é', 'e', Char.ofNat 0x301),
   ('í', 'i', Char.ofNat 0x301), ('ó', 'o', Char.ofNat 0x301),
   ('ú', 'u', Char.ofNat 0x301), ('ã', 'a', Char.ofNat 0x303),
   ('õ', 'o', Char.ofNat 0x303), ('ç', 'c', Char.ofNat 0x327),
   ('ž', 'z', Char.ofNat 0x30C), ('ů', 'u', Char.ofNat 0x30A)]

/-- Decomposition over `latinTable`; other characters are kept. -/
def latinNFD : List Char → List Char
  | [] => []
  | c :: s =>
    match latinTable.find? (fun e => e.1 = c) with
    | some (_, b, m) => b :: m :: latinNFD s
    | none => c :: latinNFD s

/-- Composition over `latinTable`. -/
def latinNFC : List Char → List Char
  | [] => []
  | [c] => [c]
  | b :: m :: s =>
    match latinTable.find? (fun e => e.2.1 = b ∧ e.2.2 = m) with
    | some (c, _, _) => c :: latinNFC s
    | none => b :: latinNFC (m :: s)

/-- Stable insertion of a rank into a list ordered by `Distance`. -/
def insertRank (r : Rank) : List Rank → List Rank
  | [] => [r]
  | x :: xs => if r.Distance < x.Distance then r :: x :: xs else x :: insertRank r xs

/-- An environment for examples: the Unicode data of the letters of
`latinTable` and of ASCII, a stable sort by `Distance`, and a sector file that
lists two candidates for every company. -/
def latinEnv : Env where
  toLower := asciiLower
  nfd := latinNFD
  nfc := latinNFC
  isMn := fun c => 0x300 ≤ c.toNat ∧ c.toNat ≤ 0x36F
  sortRanks := fun l => l.foldr insertRank []
  fromSector := fun _ _ => (["Petrobras", "Vale"], none)

/-! ## The calendar and the period, as the specification speaks of them -/

/-- Whether `y` is a leap year of the Gregorian calendar. -/
def leapYear (y : Nat) : Bool := y % 4 = 0 ∧ (y % 100 ≠ 0 ∨ y % 400 = 0)

/-- The number of days of year `y`. -/
def yearDays (y : Nat) : Nat := if leapYear y then 366 else 365

/-- The number of days from 1 January of year 0 to 1 January of year `y`. -/
def daysBeforeYear : Nat → Nat
  | 0 => 0
  | y + 1 => daysBeforeYear y + yearDays y

/-- The Unix instant of 1 January `y`, 00:00 UTC: 86400 seconds for each day
that separates it from 1 January 1970. -/
def unixJan1 (y : Nat) : Int :=
  86400 * ((daysBeforeYear y : Int) - (daysBeforeYear 1970 : Int))

/-- The year whose 1 January opens the window: the requested year, or the
year after it when the second-to-last exercise is asked for. -/
def effectiveYear (year : Int) (penult : Bool) : Int :=
  if penult then year + 1 else year

/-! ## Stores for examples -/

/-- The bit pattern of the `float32` value `10.0`. -/
def f10 : Float32 := ⟨0x41200000⟩

/-- The bit pattern of the `float32` value `20.0`. -/
def f20 : Float32 := ⟨0x41A00000⟩

/-- The rows of table `dfp` in the example store. ACME reports accounts 101
and 102 once each in 2020 for the last exercise; it has a further row stamped
1 January 2021 00:00 UTC, a row of 2019 and a row for the second-to-last
exercise. -/
def sampleRows : List DfpRow :=
  [⟨some 101, "ACME", "ÚLTIMO", 1585699200, some f10⟩,
   ⟨some 103, "ACME", "ÚLTIMO", 1609459200, some f10⟩,
   ⟨some 102, "ACME", "ÚLTIMO", 1593561600, some f20⟩,
   ⟨some 104, "ACME", "ÚLTIMO", 1561939200, some f20⟩,
   ⟨some 105, "ACME", "PENÚLTIMO", 1585699200, some f20⟩,
   ⟨some 101, "VALE S.A.", "ÚLTIMO", 1585699200, some f20⟩]

/-- The company name `ACME" OR "x" LIKE "x`. -/
def quotedName : String := "ACME\" OR \"x\" LIKE \"x"

/-- The `WHERE` clause of the statement that `accountsValues` builds for
`quotedName`: the text reads `DENOM_CIA LIKE "ACME" OR "x" LIKE "x%" AND
ORDEM_EXERC LIKE "period" AND DT_REFER >= t0 AND DT_REFER < t1`, in which
`AND` binds tighter than `OR`. -/
def quotedFilter (period : String) (t0 t1 : Int) (row : DfpRow) : Bool :=
  sqlLike "ACME".data row.denomCia.data
    || (sqlLike "x%".data "x".data && sqlLike period.data row.ordemExerc.data
      && decide (t0 ≤ row.dtRefer) && decide (row.dtRefer < t1))

/-- A store with three companies, whose table holds `sampleRows`. Of the names
that hold a double quote the examples use `quotedName` only, and `spliced` is
given for it. -/
def sampleDB : DB where
  dfp := sampleRows
  queryErr := fun _ => none
  spliced := fun company period t0 t1 =>
    if company = quotedName then sampleRows.filter (quotedFilter period t0 t1) else []
  items := fun _ => []
  averages := fun _ _ _ _ => []
  years := [(some 2019, some 2021)]
  listCompanies := Except.ok ["ACME", "PETROBRAS", "VALE S.A."]

/-- A store whose report lists `sampleDB`. -/
def sampleReport : report := ⟨sampleDB, "setores.yml"⟩

/-- A store in which the only company is stored under an accented name. -/
def accentReport : report :=
  ⟨{ sampleDB with listCompanies := Except.ok ["Petróbrás"] }, "setores.yml"⟩

/-- A store in which no company resembles the candidates of `latinEnv`. -/
def strangerReport : report :=
  ⟨{ sampleDB with listCompanies := Except.ok ["ACME"] }, "setores.yml"⟩

/-- A store on which every statement fails to execute. -/
def closedReport : report :=
  ⟨{ sampleDB with queryErr := fun _ => some (GoError.sql "sql: database is closed") },
    "setores.yml"⟩

/-- A store whose table `dfp` is empty: the aggregate statement of `timeRange`
yields one row of two `NULL`s. -/
def emptyReport : report :=
  ⟨{ sampleDB with dfp := [], years := [(none, none)], listCompanies := Except.ok [] },
    "setores.yml"⟩

/-- An environment whose sector file lists a single name. -/
def soloEnv : Env :=
  { latinEnv with fromSector := fun _ _ => (["Petrobras"], none) }

/-- An environment whose sector source fails. -/
def failingEnv : Env :=
  { latinEnv with fromSector := fun _ _ => ([], some (GoError.external "open setores.yml: no such file")) }


/-! ## Lemmas: calendar arithmetic -/

theorem wrapInt64_of_range (z : Int) (h1 : -2 ^ 63 ≤ z) (h2 : z < 2 ^ 63) :
    wrapInt64 z = z := by
  unfold wrapInt64
  norm_num at h1 h2 ⊢
  omega

theorem daysBeforeYear_closed (y : Nat) :
    daysBeforeYear y + (y + 99) / 100 = 365 * y + (y + 3) / 4 + (y + 399) / 400 := by
  induction y with
  | zero => rfl
  | succ n ih =>
    simp only [daysBeforeYear, yearDays, leapYear]
    split_ifs with h <;> simp at h <;> omega

theorem daysBeforeYear_1970 : daysBeforeYear 1970 = 719528 := by
  have h := daysBeforeYear_closed 1970
  omega

theorem daysSinceEpoch_eq (y : Nat) (h : y ≤ 100000) :
    daysSinceEpoch (y : Int) = 106751990353566 + (daysBeforeYear y : Int) := by
  have hc := daysBeforeYear_closed y
  have e1 : wrapUint64 ((y : Int) - absoluteZeroYear) = (y : Int) + 292277022399 := by
    unfold wrapUint64 absoluteZeroYear
    norm_num
    omega
  unfold daysSinceEpoch
  simp only [e1]
  omega

theorem daysBeforeYear_le (y : Nat) : 365 * y ≤ daysBeforeYear y ∧ daysBeforeYear y ≤ 366 * y := by
  have hc := daysBeforeYear_closed y
  omega

theorem dateUnix_jan1 (y : Nat) (h : y ≤ 100000) : dateUnix (y : Int) 1 1 = unixJan1 y := by
  have hd := daysSinceEpoch_eq y h
  have hb := daysBeforeYear_le y
  have h70 := daysBeforeYear_1970
  have hn : norm (y : Int) (1 - 1) 12 = ((y : Int), 0) := by
    simp [norm]
  have hl : daysBefore.getD ((0 : Int) + 1 - 1).toNat 0 = 0 := by decide
  have hm : ¬ ((0 : Int) + 1 ≥ 3) := by decide
  unfold dateUnix unixJan1
  dsimp only
  rw [hn]
  simp only [hd, h70, hl, hm, decide_False, Bool.and_false, Bool.false_eq_true, if_false]
  simp only [wrapUint64, wrapInt64, absoluteToUnix]
  norm_num
  omega

theorem unixJan1_succ (y : Nat) :
    unixJan1 (y + 1) = unixJan1 y + 86400 * (yearDays y : Int) := by
  have e : daysBeforeYear (y + 1) = daysBeforeYear y + yearDays y := rfl
  unfold unixJan1
  rw [e]
  push_cast
  ring

/-! ## Lemmas: formatting and parsing a year -/

theorem digitChar_toNat (d : Nat) (h : d < 10) : (digitChar d).toNat = 48 + d := by
  interval_cases d <;> rfl

theorem digitChar_isDigit (d : Nat) (h : d < 10) :
    ¬ (digitChar d < '0') ∧ ¬ (digitChar d > '9') ∧ digitChar d ≠ '-' ∧ digitChar d ≠ '+' ∧
    '0' ≤ digitChar d ∧ digitChar d ≤ '9' := by
  interval_cases d <;> decide

theorem fmtDigits_four (fuel u : Nat) (hf : 3 ≤ fuel) (h1 : 1000 ≤ u) (h2 : u ≤ 9999) :
    fmtDigits fuel u [] =
      [digitChar (u / 1000), digitChar (u / 100 % 10), digitChar (u / 10 % 10), digitChar (u % 10)] := by
  obtain ⟨k, rfl⟩ : ∃ k, fuel = k + 3 := ⟨fuel - 3, by omega⟩
  have a1 : 10 ≤ u := by omega
  have a2 : 10 ≤ u / 10 := by omega
  have a3 : 10 ≤ u / 10 / 10 := by omega
  have a4 : ¬ 10 ≤ u / 10 / 10 / 10 := by omega
  have e1 : u / 10 / 10 / 10 = u / 1000 := by omega
  have e2 : u / 10 / 10 % 10 = u / 100 % 10 := by omega
  rw [fmtDigits, if_pos a1, fmtDigits, if_pos a2, fmtDigits, if_pos a3]
  have hlast : ∀ acc, fmtDigits k (u / 10 / 10 / 10) acc = digitChar (u / 10 / 10 / 10) :: acc := by
    intro acc
    cases k with
    | zero => rfl
    | succ k => rw [fmtDigits, if_neg a4]
  rw [hlast, e1, e2]

theorem sprintfJan1_four (y : Int) (h1 : 1000 ≤ y) (h2 : y ≤ 9999) :
    sprintfJan1 y =
      [digitChar (y.toNat / 1000), digitChar (y.toNat / 100 % 10), digitChar (y.toNat / 10 % 10),
        digitChar (y.toNat % 10), '-', '0', '1', '-', '0', '1'] := by
  have hn : y.natAbs = y.toNat := by omega
  have hlt : ¬ y < 0 := by omega
  unfold sprintfJan1 fmtInt
  rw [if_neg hlt, hn, fmtDigits_four y.toNat y.toNat (by omega) (by omega) (by omega)]
  rfl

theorem atoi_four (a b c d : Nat) (ha : a < 10) (hb : b < 10) (hc : c < 10) (hd : d < 10) :
    atoi [digitChar a, digitChar b, digitChar c, digitChar d] =
      some ((1000 * a + 100 * b + 10 * c + d : Nat) : Int) := by
  obtain ⟨a1, a2, a3, a4, -, -⟩ := digitChar_isDigit a ha
  obtain ⟨b1, b2, -, -, -, -⟩ := digitChar_isDigit b hb
  obtain ⟨c1, c2, -, -, -, -⟩ := digitChar_isDigit c hc
  obtain ⟨d1, d2, -, -, -, -⟩ := digitChar_isDigit d hd
  have ta := digitChar_toNat a ha
  have tb := digitChar_toNat b hb
  have tc := digitChar_toNat c hc
  have td := digitChar_toNat d hd
  have w1 : wrapInt64 (0 * 10 + ((digitChar a).toNat : Int) - 48) = (a : Int) := by
    rw [wrapInt64_of_range] <;> norm_num <;> omega
  have w2 : wrapInt64 ((a : Int) * 10 + ((digitChar b).toNat : Int) - 48) = ((10 * a + b : Nat) : Int) := by
    rw [wrapInt64_of_range] <;> norm_num <;> omega
  have w3 : wrapInt64 (((10 * a + b : Nat) : Int) * 10 + ((digitChar c).toNat : Int) - 48)
      = ((100 * a + 10 * b + c : Nat) : Int) := by
    rw [wrapInt64_of_range] <;> norm_num <;> omega
  have w4 : wrapInt64 (((100 * a + 10 * b + c : Nat) : Int) * 10 + ((digitChar d).toNat : Int) - 48)
      = ((1000 * a + 100 * b + 10 * c + d : Nat) : Int) := by
    rw [wrapInt64_of_range] <;> norm_num <;> omega
  have g1 : ¬ ((0 : Int) > (2 ^ 63 - 1) / 10) := by norm_num
  have g2 : ¬ ((a : Int) > (2 ^ 63 - 1) / 10) := by norm_num; omega
  have g3 : ¬ (((10 * a + b : Nat) : Int) > (2 ^ 63 - 1) / 10) := by norm_num; omega
  have g4 : ¬ (((100 * a + 10 * b + c : Nat) : Int) > (2 ^ 63 - 1) / 10) := by norm_num; omega
  have n1 : ¬ ((a : Int) < 0) := by omega
  have n2 : ¬ (((10 * a + b : Nat) : Int) < 0) := by omega
  have n3 : ¬ (((100 * a + 10 * b + c : Nat) : Int) < 0) := by omega
  have n4 : ¬ (((1000 * a + 100 * b + 10 * c + d : Nat) : Int) < 0) := by omega
  have s1 : (digitChar a == '-') = false := by simpa using a3
  have s2 : (digitChar a == '+') = false := by simpa using a4
  simp only [atoi, leadingInt, s1, s2, Bool.or_false, Bool.false_eq_true, if_false,
    decide_eq_true_eq, Bool.or_eq_true, a1, a2, b1, b2, c1, c2, d1, d2, or_self, w1, w2, w3, w4,
    g1, g2, g3, g4, n1, n2, n3, n4, ne_eq, not_true_eq_false]
theorem daysIn_jan (year : Int) : daysIn 1 year = 31 := by
  simp [daysIn, daysBefore]

theorem timeParse_year (y : Int) (h1 : 1000 ≤ y) (h2 : y ≤ 9999) :
    timeParse (sprintfJan1 y) = Except.ok (unixJan1 y.toNat) := by
  have ha : y.toNat / 1000 < 10 := by omega
  have hb : y.toNat / 100 % 10 < 10 := by omega
  have hc : y.toNat / 10 % 10 < 10 := by omega
  have hd : y.toNat % 10 < 10 := by omega
  have hy : ((1000 * (y.toNat / 1000) + 100 * (y.toNat / 100 % 10) + 10 * (y.toNat / 10 % 10)
      + y.toNat % 10 : Nat) : Int) = (y.toNat : Int) := by
    congr 1
    omega
  obtain ⟨-, -, -, -, a5, a6⟩ := digitChar_isDigit (y.toNat / 1000) ha
  have hat := atoi_four _ _ _ _ ha hb hc hd
  have hyy : (y.toNat : Int) = y := Int.toNat_of_nonneg (by omega)
  rw [hy, hyy] at hat
  have hdate := dateUnix_jan1 y.toNat (by omega)
  rw [hyy] at hdate
  rw [sprintfJan1_four y h1 h2]
  unfold timeParse
  simp only [List.take, List.drop, hat, List.length_cons, List.length_nil]
  simp [isDigit, a5, a6, skipDash, getnum, daysIn_jan, hdate]

theorem skipDash_some (v t : List Char) (h : skipDash v = some t) : v = '-' :: t := by
  unfold skipDash at h
  split at h
  · simp at h
  · split at h <;> simp_all

theorem getnum_fixed_some (s t : List Char) (n : Int) (h : getnum s true = some (n, t)) :
    s.length = t.length + 2 := by
  unfold getnum at h
  split at h
  · simp at h
  · split at h
    · simp at h
    · split at h
      · simp at h
        simp [h.2]
      · simp at h

theorem timeParse_ok_length (value : List Char) (t : Int) (h : timeParse value = Except.ok t) :
    value.length = 10 ∧ isDigit value 0 = true := by
  unfold timeParse at h
  simp only at h
  split at h
  · simp at h
  · rename_i h0
    split at h
    · simp at h
    · split at h
      · simp at h
      · rename_i v1 hs1
        split at h
        · simp at h
        · rename_i month v2 hg1
          split at h
          · simp at h
          · split at h
            · simp at h
            · rename_i v3 hs2
              split at h
              · simp at h
              · rename_i day v4 hg2
                split at h
                · simp at h
                · rename_i hlen
                  have e1 := skipDash_some _ _ hs1
                  have e2 := getnum_fixed_some _ _ _ hg1
                  have e3 := skipDash_some _ _ hs2
                  have e4 := getnum_fixed_some _ _ _ hg2
                  have e5 : (List.drop 4 value).length = value.length - 4 := List.length_drop 4 value
                  rw [e1] at e5
                  rw [e3] at e2
                  simp at hlen e5 e2 h0
                  have e6 : v4.length = 0 := by simp [hlen]
                  refine ⟨by omega, h0.2⟩

theorem fmtDigits_length_le (fuel u : Nat) (acc : List Char) (h : u < 1000) :
    (fmtDigits fuel u acc).length ≤ acc.length + 3 := by
  have one : ∀ f v (a : List Char), v < 10 → (fmtDigits f v a).length = a.length + 1 := by
    intro f v a hv
    cases f with
    | zero => simp [fmtDigits]
    | succ f => rw [fmtDigits, if_neg (by omega)]; simp
  have two : ∀ f v (a : List Char), v < 100 → (fmtDigits f v a).length ≤ a.length + 2 := by
    intro f v a hv
    cases f with
    | zero => simp [fmtDigits]
    | succ f =>
      rw [fmtDigits]
      split
      · rw [one _ _ _ (by omega)]; simp
      · simp
  cases fuel with
  | zero => simp [fmtDigits]
  | succ f =>
    rw [fmtDigits]
    split
    · have := two f (u / 10) (digitChar (u % 10) :: acc) (by omega)
      simp at this
      omega
    · simp

theorem fmtDigits_length_ge (fuel u : Nat) (acc : List Char) (hf : u ≤ fuel) (h : 10000 ≤ u) :
    acc.length + 5 ≤ (fmtDigits fuel u acc).length := by
  have zero : ∀ f v (a : List Char), a.length + 1 ≤ (fmtDigits f v a).length := by
    intro f
    induction f with
    | zero => intro v a; simp [fmtDigits]
    | succ f ih =>
      intro v a
      rw [fmtDigits]
      split
      · have := ih (v / 10) (digitChar (v % 10) :: a)
        simp at this
        omega
      · simp
  obtain ⟨k, rfl⟩ : ∃ k, fuel = k + 4 := ⟨fuel - 4, by omega⟩
  rw [fmtDigits, if_pos (by omega), fmtDigits, if_pos (by omega), fmtDigits, if_pos (by omega),
    fmtDigits, if_pos (by omega)]
  have := zero k (u / 10 / 10 / 10 / 10)
    (digitChar (u / 10 / 10 / 10 % 10) :: digitChar (u / 10 / 10 % 10) :: digitChar (u / 10 % 10)
      :: digitChar (u % 10) :: acc)
  simp at this
  omega

theorem timeParse_ok_range (y t : Int) (h : timeParse (sprintfJan1 y) = Except.ok t) :
    1000 ≤ y ∧ y ≤ 9999 := by
  obtain ⟨hlen, hdig⟩ := timeParse_ok_length _ _ h
  unfold sprintfJan1 fmtInt at hlen hdig
  by_cases hneg : y < 0
  · rw [if_pos hneg] at hdig
    simp [isDigit] at hdig
  · rw [if_neg hneg] at hlen
    simp only [List.length_append, List.length_cons, List.length_nil] at hlen
    by_contra hc
    by_cases hs : y < 1000
    · have := fmtDigits_length_le y.natAbs y.natAbs [] (by omega)
      simp at this
      omega
    · have := fmtDigits_length_ge y.natAbs y.natAbs [] le_rfl (by omega)
      simp at this
      omega

theorem timeParse_error_of_range (y : Int) (h : ¬ (1000 ≤ y ∧ y ≤ 9999)) :
    ∃ e, timeParse (sprintfJan1 y) = Except.error e := by
  cases hp : timeParse (sprintfJan1 y) with
  | error e => exact ⟨e, rfl⟩
  | ok t => exact absurd (timeParse_ok_range y t hp) h

/-! ## Lemmas: maps and the scan loops -/

theorem lookup_filter_ne (m : GoMap) (k c : Nat) (h : c ≠ k) :
    List.lookup c (m.filter (fun e => e.1 != k)) = List.lookup c m := by
  induction m with
  | nil => rfl
  | cons e m ih =>
    obtain ⟨k1, v1⟩ := e
    by_cases hk : k1 = k
    · have hc : (c == k1) = false := by
        rw [hk]
        simpa using h
      have hf : ((k1, v1).1 != k) = false := by simpa using hk
      rw [List.filter_cons, hf, List.lookup_cons, hc]
      simpa using ih
    · have hf : ((k1, v1).1 != k) = true := by simpa using hk
      rw [List.filter_cons, hf]
      simp only [if_true, List.lookup_cons]
      rw [ih]

theorem mapGet_mapSet (m : GoMap) (k c : Nat) (v : Float32) :
    mapGet (mapSet m k v) c = if c = k then some v else mapGet m c := by
  unfold mapGet mapSet
  by_cases h : c = k
  · subst h
    simp [List.lookup]
  · have hb : (c == k) = false := by simpa using h
    rw [if_neg h, List.lookup_cons, hb]
    exact lookup_filter_ne m k c h

theorem mapGet_isSome_iff (m : GoMap) (c : Nat) :
    (mapGet m c).isSome = true ↔ c ∈ m.map Prod.fst := by
  unfold mapGet
  induction m with
  | nil => simp
  | cons e m ih =>
    obtain ⟨k1, v1⟩ := e
    by_cases hc : c = k1
    · subst hc
      simp [List.lookup]
    · have hb1 : (c == k1) = false := by simpa using hc
      simp only [List.lookup, hb1, List.map_cons, List.mem_cons, hc, false_or]
      exact ih

theorem mapSet_nodup (m : GoMap) (k : Nat) (v : Float32) (h : (m.map Prod.fst).Nodup) :
    ((mapSet m k v).map Prod.fst).Nodup := by
  unfold mapSet
  rw [List.map_cons, List.nodup_cons]
  constructor
  · simp [List.mem_map, List.mem_filter]
  · exact (List.Nodup.sublist (List.Sublist.map _ (List.filter_sublist _)) h)

theorem reportLoop_nodup (rows : List DfpRow) (st : account) (values : GoMap)
    (h : (values.map Prod.fst).Nodup) : ((reportLoop rows st values).map Prod.fst).Nodup := by
  induction rows generalizing st values with
  | nil => exact h
  | cons row rows ih => exact ih _ _ (mapSet_nodup _ _ _ h)

/-- The value the loop of `accountsValues` leaves under code `c`: that of the
last row with this code, or the one the map held before. -/
theorem reportLoop_get (rows : List DfpRow) (st : account) (values : GoMap) (c : Nat)
    (hs : ∀ row ∈ rows, row.code.isSome = true ∧ row.vlConta.isSome = true) :
    mapGet (reportLoop rows st values) c =
      match (rows.filter (fun row => row.code = some c)).getLast? with
      | some row => row.vlConta
      | none => mapGet values c := by
  induction rows generalizing st values with
  | nil => simp [reportLoop]
  | cons row rows ih =>
    have hrow := hs row (List.mem_cons_self _ _)
    have hrest : ∀ row ∈ rows, row.code.isSome = true ∧ row.vlConta.isSome = true :=
      fun x hx => hs x (List.mem_cons_of_mem _ hx)
    obtain ⟨c0, hc0⟩ := Option.isSome_iff_exists.mp hrow.1
    obtain ⟨v0, hv0⟩ := Option.isSome_iff_exists.mp hrow.2
    have hscan : scanReport st row = ⟨c0, v0⟩ := by simp [scanReport, hc0, hv0]
    rw [reportLoop]
    simp only [hscan]
    rw [ih _ _ hrest, mapGet_mapSet]
    by_cases hc : c0 = c
    · subst hc
      simp only [List.filter, hc0, decide_True]
      cases hl : (rows.filter (fun row => row.code = some c0)).getLast? with
      | none =>
        have hnil : rows.filter (fun row => row.code = some c0) = [] := by
          simpa [List.getLast?_eq_none_iff] using hl
        simp [hnil, hv0]
      | some last =>
        have hne : rows.filter (fun row => row.code = some c0) ≠ [] := by
          intro hnil
          simp [hnil] at hl
        obtain ⟨x, xs, hx⟩ := List.exists_cons_of_ne_nil hne
        rw [hx] at hl ⊢
        rw [List.getLast?_cons_cons, hl]
    · have hne : ¬ (row.code = some c) := by
        rw [hc0]
        simpa using hc
      have hcne : ¬ (c = c0) := fun h => hc h.symm
      simp only [List.filter, hne, decide_False, if_neg hcne]

/-! ## Lemmas: the period computed by the source -/

theorem timeParse_error_eq (value : List Char) (e : GoError)
    (h : timeParse value = Except.error e) : e = GoError.parseError (String.mk value) := by
  unfold timeParse at h
  simp only at h
  repeat' split at h
  all_goals first
    | exact (Except.error.inj h).symm
    | exact absurd h (by simp)

theorem codeYear_eq (year : Int) (penult : Bool) (h1 : 1000 ≤ effectiveYear year penult)
    (h2 : effectiveYear year penult ≤ 9999) :
    (if penult = true then wrapInt64 (year + 1) else year) = effectiveYear year penult := by
  unfold effectiveYear at *
  cases penult
  · simp
  · simp only [if_true] at h1 h2 ⊢
    exact wrapInt64_of_range _ (by norm_num; omega) (by norm_num; omega)

theorem parse_window (Y : Int) (h1 : 1000 ≤ Y) (h2 : Y ≤ 9998) :
    timeParse (sprintfJan1 Y) = Except.ok (unixJan1 Y.toNat) ∧
    timeParse (sprintfJan1 (wrapInt64 (Y + 1))) = Except.ok (unixJan1 (Y.toNat + 1)) := by
  have hw : wrapInt64 (Y + 1) = Y + 1 :=
    wrapInt64_of_range _ (by norm_num; omega) (by norm_num; omega)
  have hn : (Y + 1).toNat = Y.toNat + 1 := by omega
  refine ⟨timeParse_year Y h1 (by omega), ?_⟩
  rw [hw, timeParse_year (Y + 1) (by omega) (by omega), hn]

theorem accountsValues_valid (r : report) (company : String) (year : Int) (penult : Bool)
    (h1 : 1000 ≤ effectiveYear year penult) (h2 : effectiveYear year penult ≤ 9998) :
    accountsValues r company year penult =
      match r.db.selectReport company (if penult then "PEN_LTIMO" else "_LTIMO")
          (unixJan1 (effectiveYear year penult).toNat)
          (unixJan1 ((effectiveYear year penult).toNat + 1)) with
      | Except.error e =>
        ⟨([], some e), [Event.query (Query.selectReport company
          (if penult then "PEN_LTIMO" else "_LTIMO")
          (unixJan1 (effectiveYear year penult).toNat)
          (unixJan1 ((effectiveYear year penult).toNat + 1)))]⟩
      | Except.ok rows =>
        ⟨(reportLoop rows ⟨0, ⟨0⟩⟩ [], none), [Event.query (Query.selectReport company
          (if penult then "PEN_LTIMO" else "_LTIMO")
          (unixJan1 (effectiveYear year penult).toNat)
          (unixJan1 ((effectiveYear year penult).toNat + 1)))]⟩ := by
  have hy := codeYear_eq year penult h1 (by omega)
  obtain ⟨p1, p2⟩ := parse_window _ h1 h2
  unfold accountsValues
  simp only [hy, p1, p2]

theorem accountsAverage_valid (env : Env) (r : report) (company : String) (year : Int)
    (penult : Bool) (com : List String)
    (h1 : 1000 ≤ effectiveYear year penult) (h2 : effectiveYear year penult ≤ 9998)
    (hc : 2 ≤ (env.fromSector company r.yamlFile).1.length)
    (hl : r.db.listCompanies = Except.ok com)
    (hm : listedCompanies env com (env.fromSector company r.yamlFile).1 ≠ []) :
    accountsAverage env r company year penult =
      match r.db.selectAverage (listedCompanies env com (env.fromSector company r.yamlFile).1)
          (if penult then "PEN_LTIMO" else "_LTIMO")
          (unixJan1 (effectiveYear year penult).toNat)
          (unixJan1 ((effectiveYear year penult).toNat + 1)) with
      | Except.error e =>
        ⟨([], some e), [Event.fromSector company r.yamlFile, Event.listCompanies,
          Event.query (Query.selectAverage
            (listedCompanies env com (env.fromSector company r.yamlFile).1)
            (if penult then "PEN_LTIMO" else "_LTIMO")
            (unixJan1 (effectiveYear year penult).toNat)
            (unixJan1 ((effectiveYear year penult).toNat + 1)))]⟩
      | Except.ok rows =>
        ⟨(averageLoop rows ⟨0, ⟨0⟩⟩ [], none), [Event.fromSector company r.yamlFile,
          Event.listCompanies,
          Event.query (Query.selectAverage
            (listedCompanies env com (env.fromSector company r.yamlFile).1)
            (if penult then "PEN_LTIMO" else "_LTIMO")
            (unixJan1 (effectiveYear year penult).toNat)
            (unixJan1 ((effectiveYear year penult).toNat + 1)))]⟩ := by
  have hy := codeYear_eq year penult h1 (by omega)
  obtain ⟨p1, p2⟩ := parse_window _ h1 h2
  have hc1 : ¬ (env.fromSector company r.yamlFile).1.length ≤ 1 := by omega
  have hm1 : ¬ (listedCompanies env com (env.fromSector company r.yamlFile).1).length = 0 := by
    simpa [List.length_eq_zero] using hm
  unfold accountsAverage
  simp only [hy, p1, p2, hl, if_neg hc1, if_neg hm1]

theorem reportFilter_iff (company period : String) (t0 t1 : Int) (row : DfpRow) :
    reportFilter company period t0 t1 row = true ↔
      sqlLike (company.data ++ ['%']) row.denomCia.data = true ∧
      sqlLike period.data row.ordemExerc.data = true ∧ t0 ≤ row.dtRefer ∧ row.dtRefer < t1 := by
  simp [reportFilter, and_assoc]

theorem yearDays_cases (y : Nat) : yearDays y = 365 ∨ yearDays y = 366 := by
  unfold yearDays
  split
  · exact Or.inr rfl
  · exact Or.inl rfl

theorem unixJan1_2020 : unixJan1 2020 = 1577836800 := by
  have h := daysBeforeYear_closed 2020
  have h70 := daysBeforeYear_1970
  unfold unixJan1
  rw [h70]
  omega

theorem unixJan1_2021 : unixJan1 2021 = 1609459200 := by
  have h := daysBeforeYear_closed 2021
  have h70 := daysBeforeYear_1970
  unfold unixJan1
  rw [h70]
  omega

/-! ## Theorems -/

/-- C1: when the effective year `Y` lies in 1000..9998, `accountsValues` queries
the store with the window from the Unix instant of 1 January `Y` to that of
1 January `Y+1`, lower bound included and upper bound excluded, under the tag
`_LTIMO` or `PEN_LTIMO`; `accountsAverage` queries with the same window and
tag; the window starts before it ends and lasts 365 or 366 days. -/
theorem period_window (env : Env) (r : report) (company : String) (year : Int) (penult : Bool)
    (h1 : 1000 ≤ effectiveYear year penult) (h2 : effectiveYear year penult ≤ 9998) :
    (accountsValues r company year penult).trace =
        [Event.query (Query.selectReport company (if penult then "PEN_LTIMO" else "_LTIMO")
          (unixJan1 (effectiveYear year penult).toNat)
          (unixJan1 ((effectiveYear year penult).toNat + 1)))]
    ∧ (∀ row : DfpRow,
        reportFilter company (if penult then "PEN_LTIMO" else "_LTIMO")
          (unixJan1 (effectiveYear year penult).toNat)
          (unixJan1 ((effectiveYear year penult).toNat + 1)) row = true →
        unixJan1 (effectiveYear year penult).toNat ≤ row.dtRefer ∧
        row.dtRefer < unixJan1 ((effectiveYear year penult).toNat + 1))
    ∧ (∀ com : List String, 2 ≤ (env.fromSector company r.yamlFile).1.length →
        r.db.listCompanies = Except.ok com →
        listedCompanies env com (env.fromSector company r.yamlFile).1 ≠ [] →
        (accountsAverage env r company year penult).trace =
          [Event.fromSector company r.yamlFile, Event.listCompanies,
            Event.query (Query.selectAverage
              (listedCompanies env com (env.fromSector company r.yamlFile).1)
              (if penult then "PEN_LTIMO" else "_LTIMO")
              (unixJan1 (effectiveYear year penult).toNat)
              (unixJan1 ((effectiveYear year penult).toNat + 1)))])
    ∧ unixJan1 (effectiveYear year penult).toNat
        < unixJan1 ((effectiveYear year penult).toNat + 1)
    ∧ (unixJan1 ((effectiveYear year penult).toNat + 1)
          - unixJan1 (effectiveYear year penult).toNat = 365 * 86400
        ∨ unixJan1 ((effectiveYear year penult).toNat + 1)
          - unixJan1 (effectiveYear year penult).toNat = 366 * 86400) := by
  have hd := yearDays_cases (effectiveYear year penult).toNat
  have hs := unixJan1_succ (effectiveYear year penult).toNat
  refine ⟨?_, ?_, ?_, ?_, ?_⟩
  · rw [accountsValues_valid r company year penult h1 h2]
    split <;> rfl
  · intro row hrow
    exact ((reportFilter_iff _ _ _ _ row).mp hrow).2.2
  · intro com hc hl hm
    rw [accountsAverage_valid env r company year penult com h1 h2 hc hl hm]
    split <;> rfl
  · rcases hd with hd | hd <;> rw [hs, hd] <;> omega
  · rcases hd with hd | hd <;> rw [hs, hd]
    · left; push_cast; ring
    · right; push_cast; ring

/-- Witness of C1 for the year 2020 and the last exercise: both functions
query with the window from 1577836800 (1 January 2020) to 1609459200
(1 January 2021) and the tag `_LTIMO`. -/
theorem period_window_witness :
    1000 ≤ effectiveYear 2020 false ∧ effectiveYear 2020 false ≤ 9998 ∧
    (accountsValues sampleReport "ACME" 2020 false).trace =
      [Event.query (Query.selectReport "ACME" "_LTIMO" 1577836800 1609459200)] ∧
    (accountsAverage latinEnv sampleReport "ACME" 2020 false).trace =
      [Event.fromSector "ACME" "setores.yml", Event.listCompanies,
        Event.query (Query.selectAverage ["PETROBRAS", "VALE S.A."] "_LTIMO"
          1577836800 1609459200)] := by
  obtain ⟨hv, -, ha, -, -⟩ :=
    period_window latinEnv sampleReport "ACME" 2020 false (by decide) (by decide)
  have ha1 := ha ["ACME", "PETROBRAS", "VALE S.A."] (by decide) rfl (by decide)
  have e0 : unixJan1 (effectiveYear 2020 false).toNat = 1577836800 := unixJan1_2020
  have e1 : unixJan1 ((effectiveYear 2020 false).toNat + 1) = 1609459200 := unixJan1_2021
  rw [e0, e1] at hv ha1
  exact ⟨by decide, by decide, hv, ha1⟩

/-- C2, amended: for a company name without a double quote, a valid period, a
statement that executes and rows that all scan,
`accountsValues` returns no error and a map with one entry per key; a code is
a key exactly when some row selected by company, tag and window carries it;
the value under a code is that of the last selected row with this code; a row
whose timestamp is outside the window, its end included, is not selected. -/
theorem accountsValues_map (r : report) (company : String) (year : Int) (penult : Bool)
    (hname : '"' ∉ company.data)
    (h1 : 1000 ≤ effectiveYear year penult) (h2 : effectiveYear year penult ≤ 9998)
    (hq : r.db.queryErr (Query.selectReport company (if penult then "PEN_LTIMO" else "_LTIMO")
      (unixJan1 (effectiveYear year penult).toNat)
      (unixJan1 ((effectiveYear year penult).toNat + 1))) = none)
    (hs : ∀ row ∈ r.db.dfp,
      reportFilter company (if penult then "PEN_LTIMO" else "_LTIMO")
        (unixJan1 (effectiveYear year penult).toNat)
        (unixJan1 ((effectiveYear year penult).toNat + 1)) row = true →
      row.code.isSome = true ∧ row.vlConta.isSome = true) :
    (accountsValues r company year penult).result.2 = none
    ∧ ((accountsValues r company year penult).result.1.map Prod.fst).Nodup
    ∧ (∀ c : Nat, c ∈ (accountsValues r company year penult).result.1.map Prod.fst ↔
        ∃ row ∈ r.db.dfp, row.code = some c ∧
          sqlLike (company.data ++ ['%']) row.denomCia.data = true ∧
          sqlLike (if penult then "PEN_LTIMO" else "_LTIMO").data row.ordemExerc.data = true ∧
          unixJan1 (effectiveYear year penult).toNat ≤ row.dtRefer ∧
          row.dtRefer < unixJan1 ((effectiveYear year penult).toNat + 1))
    ∧ (∀ c : Nat, mapGet (accountsValues r company year penult).result.1 c =
        (((r.db.dfp.filter (reportFilter company (if penult then "PEN_LTIMO" else "_LTIMO")
            (unixJan1 (effectiveYear year penult).toNat)
            (unixJan1 ((effectiveYear year penult).toNat + 1)))).filter
          (fun row => row.code = some c)).getLast?).bind (fun row => row.vlConta))
    ∧ (∀ row : DfpRow,
        ¬ (unixJan1 (effectiveYear year penult).toNat ≤ row.dtRefer ∧
          row.dtRefer < unixJan1 ((effectiveYear year penult).toNat + 1)) →
        row ∉ r.db.dfp.filter (reportFilter company (if penult then "PEN_LTIMO" else "_LTIMO")
            (unixJan1 (effectiveYear year penult).toNat)
            (unixJan1 ((effectiveYear year penult).toNat + 1)))) := by
  have hv := accountsValues_valid r company year penult h1 h2
  have hplain : ¬ ('"' ∈ company.data ∨
      '"' ∈ (if penult = true then "PEN_LTIMO" else "_LTIMO").data) := by
    rintro (h | h)
    · exact hname h
    · cases penult
      · exact absurd h (by decide)
      · exact absurd h (by decide)
  simp only [DB.selectReport, hq, if_neg hplain] at hv
  have hs1 : ∀ row ∈ r.db.dfp.filter (reportFilter company (if penult then "PEN_LTIMO" else "_LTIMO")
      (unixJan1 (effectiveYear year penult).toNat)
      (unixJan1 ((effectiveYear year penult).toNat + 1))),
      row.code.isSome = true ∧ row.vlConta.isSome = true := by
    intro row hrow
    rw [List.mem_filter] at hrow
    exact hs row hrow.1 hrow.2
  have hget : ∀ c : Nat, mapGet (accountsValues r company year penult).result.1 c =
        (((r.db.dfp.filter (reportFilter company (if penult then "PEN_LTIMO" else "_LTIMO")
            (unixJan1 (effectiveYear year penult).toNat)
            (unixJan1 ((effectiveYear year penult).toNat + 1)))).filter
          (fun row => row.code = some c)).getLast?).bind (fun row => row.vlConta) := by
    intro c
    rw [hv]
    simp only
    rw [reportLoop_get _ _ _ c hs1]
    generalize List.getLast? _ = last
    cases last <;> rfl
  refine ⟨?_, ?_, ?_, hget, ?_⟩
  · rw [hv]
  · rw [hv]
    exact reportLoop_nodup _ _ _ List.nodup_nil
  · intro c
    rw [← mapGet_isSome_iff, hget c]
    constructor
    · intro hsome
      cases hl : ((r.db.dfp.filter (reportFilter company (if penult then "PEN_LTIMO" else "_LTIMO")
            (unixJan1 (effectiveYear year penult).toNat)
            (unixJan1 ((effectiveYear year penult).toNat + 1)))).filter
          (fun row => row.code = some c)).getLast? with
      | none => rw [hl] at hsome; simp at hsome
      | some row =>
        have hmem := List.mem_of_getLast?_eq_some hl
        rw [List.mem_filter, List.mem_filter] at hmem
        exact ⟨row, hmem.1.1, by simpa using hmem.2, (reportFilter_iff _ _ _ _ row).mp hmem.1.2⟩
    · rintro ⟨row, hmem, hcode, hf⟩
      have hin : row ∈ (r.db.dfp.filter (reportFilter company (if penult then "PEN_LTIMO" else "_LTIMO")
            (unixJan1 (effectiveYear year penult).toNat)
            (unixJan1 ((effectiveYear year penult).toNat + 1)))).filter
          (fun row => row.code = some c) := by
        rw [List.mem_filter, List.mem_filter]
        exact ⟨⟨hmem, (reportFilter_iff _ _ _ _ row).mpr hf⟩, by simpa using hcode⟩
      have hne := List.ne_nil_of_mem hin
      obtain ⟨last, hlast⟩ : ∃ last, ((r.db.dfp.filter (reportFilter company
            (if penult then "PEN_LTIMO" else "_LTIMO")
            (unixJan1 (effectiveYear year penult).toNat)
            (unixJan1 ((effectiveYear year penult).toNat + 1)))).filter
          (fun row => row.code = some c)).getLast? = some last := by
        cases hl : ((r.db.dfp.filter (reportFilter company
            (if penult then "PEN_LTIMO" else "_LTIMO")
            (unixJan1 (effectiveYear year penult).toNat)
            (unixJan1 ((effectiveYear year penult).toNat + 1)))).filter
          (fun row => row.code = some c)).getLast? with
        | none => exact absurd (List.getLast?_eq_none_iff.mp hl) hne
        | some last => exact ⟨last, rfl⟩
      rw [hlast]
      have hlm := List.mem_of_getLast?_eq_some hlast
      rw [List.mem_filter] at hlm
      exact (hs1 last hlm.1).2
  · intro row hout hmem
    rw [List.mem_filter] at hmem
    exact hout ((reportFilter_iff _ _ _ _ row).mp hmem.2).2.2

theorem sampleDB_scans :
    ∀ row ∈ sampleDB.dfp, row.code.isSome = true ∧ row.vlConta.isSome = true := by
  decide

/-- Witness of C2, amended: ACME reports accounts 101 and 102 once each in
2020; the map holds exactly these two codes with their values, and the row
stamped at the end of the window, the row of 2019, the row of the other
exercise and the row of the other company are absent. -/
theorem accountsValues_map_witness :
    '"' ∉ "ACME".data ∧
    1000 ≤ effectiveYear 2020 false ∧ effectiveYear 2020 false ≤ 9998 ∧
    (accountsValues sampleReport "ACME" 2020 false).result.2 = none ∧
    (accountsValues sampleReport "ACME" 2020 false).result.1 = [(102, f20), (101, f10)] :=
  ⟨by decide, by decide, by decide,
    (accountsValues_map sampleReport "ACME" 2020 false (by decide) (by decide) (by decide) rfl
      (fun row hrow _ => sampleDB_scans row hrow)).1,
    by rfl⟩

/-- C2, as the claim states it, fails: for the company name
`ACME" OR "x" LIKE "x`, a valid period, a statement that executes and rows that
all scan, the map returned holds the code 103, although the only row with this
code is stamped at the end of the window, and the code 105, although the only
row with this code is of the other exercise. -/
theorem accountsValues_map_counterexample :
    1000 ≤ effectiveYear 2020 false ∧ effectiveYear 2020 false ≤ 9998
    ∧ sampleReport.db.queryErr
        (Query.selectReport quotedName "_LTIMO" 1577836800 1609459200) = none
    ∧ (∀ row ∈ sampleReport.db.dfp, row.code.isSome = true ∧ row.vlConta.isSome = true)
    ∧ (accountsValues sampleReport quotedName 2020 false).result =
        ([(101, f20), (105, f20), (104, f20), (102, f20), (103, f10)], none)
    ∧ (accountsValues sampleReport quotedName 2020 false).trace =
        [Event.query (Query.selectReport quotedName "_LTIMO" 1577836800 1609459200)]
    ∧ (¬ ∃ row ∈ sampleReport.db.dfp, row.code = some 103 ∧
        1577836800 ≤ row.dtRefer ∧ row.dtRefer < 1609459200)
    ∧ (¬ ∃ row ∈ sampleReport.db.dfp, row.code = some 105 ∧
        sqlLike "_LTIMO".data row.ordemExerc.data = true) := by
  refine ⟨by decide, by decide, rfl, sampleDB_scans, by rfl, by rfl, by decide, by decide⟩

theorem rankFindFrom_sector_blind (env : Env)
    (g : String → String → List String × Option GoError) (source : String)
    (targets : List String) (index : Nat) :
    rankFindFrom { env with fromSector := g } source targets index =
      rankFindFrom env source targets index := by
  induction targets generalizing index with
  | nil => rfl
  | cons t ts ih =>
    have hm : fuzzyMatchFold { env with fromSector := g } source t = fuzzyMatchFold env source t :=
      rfl
    simp only [rankFindFrom, hm, ih]

theorem listedCompanies_sector_blind (env : Env)
    (g : String → String → List String × Option GoError) (com companies : List String) :
    listedCompanies { env with fromSector := g } com companies =
      listedCompanies env com companies := by
  induction companies with
  | nil => rfl
  | cons co cos ih =>
    have hc : matchCandidate { env with fromSector := g } com co = matchCandidate env com co := by
      unfold matchCandidate RankFindFold
      simp only [rankFindFrom_sector_blind]
      rfl
    simp only [listedCompanies, hc, ih]

/-- The run of `accountsAverage` depends on the sector source through the
candidate names only. -/
theorem accountsAverage_sector_blind (env : Env)
    (g : String → String → List String × Option GoError) (r : report) (company : String)
    (year : Int) (penult : Bool)
    (hg : (g company r.yamlFile).1 = (env.fromSector company r.yamlFile).1) :
    accountsAverage { env with fromSector := g } r company year penult =
      accountsAverage env r company year penult := by
  unfold accountsAverage
  simp only [hg, listedCompanies_sector_blind]

/-- C3: with the candidates `Petrobras` and `Vale` and the single stored name
`Petróbrás`, the candidate `Petrobras` fold-matches the stored name once the
diacritics are removed from both, but `fuzzy.RankFindFold` is handed the
stored name with its accents and ranks nothing, so that no name enters
`listedCompanies` and `accountsAverage` ends with `erro ao procurar empresas`. -/
theorem listedCompanies_accent :
    fuzzyMatchFold latinEnv (removeDiacritics latinEnv "Petrobras")
        (removeDiacritics latinEnv "Petróbrás") = true
    ∧ RankFindFold latinEnv (removeDiacritics latinEnv "Petrobras") ["Petróbrás"] = []
    ∧ listedCompanies latinEnv ["Petróbrás"] ["Petrobras", "Vale"] = []
    ∧ (accountsAverage latinEnv accentReport "Petrobras" 2020 false).result =
        ([], some (GoError.errorf "erro ao procurar empresas")) := by
  refine ⟨by decide, by decide, by decide, by rfl⟩

/-- C4, as the claim states it, fails: two candidates, none of which matches
the stored name `ACME`, make `accountsAverage` return an error. -/
theorem accountsAverage_no_match_counterexample :
    2 ≤ (latinEnv.fromSector "ACME" strangerReport.yamlFile).1.length
    ∧ strangerReport.db.listCompanies = Except.ok ["ACME"]
    ∧ listedCompanies latinEnv ["ACME"] (latinEnv.fromSector "ACME" strangerReport.yamlFile).1 = []
    ∧ (accountsAverage latinEnv strangerReport "ACME" 2020 false).result.2 ≠ none := by
  refine ⟨by decide, rfl, by decide, ?_⟩
  have h : (accountsAverage latinEnv strangerReport "ACME" 2020 false).result.2 =
      some (GoError.errorf "erro ao procurar empresas") := by rfl
  rw [h]
  exact Option.some_ne_none _

/-- C4, amended: when the sector source supplies two or more candidates, the
stored names are listed and no candidate yields a name, `accountsAverage`
returns an empty map together with the error `erro ao procurar empresas`, and
queries nothing. -/
theorem accountsAverage_no_match (env : Env) (r : report) (company : String) (year : Int)
    (penult : Bool) (com : List String)
    (hc : 2 ≤ (env.fromSector company r.yamlFile).1.length)
    (hl : r.db.listCompanies = Except.ok com)
    (hm : listedCompanies env com (env.fromSector company r.yamlFile).1 = []) :
    (accountsAverage env r company year penult).result =
        ([], some (GoError.errorf "erro ao procurar empresas"))
    ∧ (accountsAverage env r company year penult).trace =
        [Event.fromSector company r.yamlFile, Event.listCompanies] := by
  have hc1 : ¬ (env.fromSector company r.yamlFile).1.length ≤ 1 := by omega
  unfold accountsAverage
  simp only [hl, if_neg hc1, hm, List.length_nil, if_true, and_self]

/-- Witness of the amended C4 on the store that only holds `ACME`. -/
theorem accountsAverage_no_match_witness :
    2 ≤ (latinEnv.fromSector "ACME" strangerReport.yamlFile).1.length
    ∧ strangerReport.db.listCompanies = Except.ok ["ACME"]
    ∧ listedCompanies latinEnv ["ACME"] (latinEnv.fromSector "ACME" strangerReport.yamlFile).1 = []
    ∧ (accountsAverage latinEnv strangerReport "ACME" 2020 false).result =
        ([], some (GoError.errorf "erro ao procurar empresas"))
    ∧ (accountsAverage latinEnv strangerReport "ACME" 2020 false).trace =
        [Event.fromSector "ACME" strangerReport.yamlFile, Event.listCompanies] :=
  ⟨by decide, rfl, by decide,
    accountsAverage_no_match latinEnv strangerReport "ACME" 2020 false ["ACME"]
      (by decide) rfl (by decide)⟩

theorem accountsAverage_few (env : Env) (r : report) (company : String)
    (year : Int) (penult : Bool)
    (h : (env.fromSector company r.yamlFile).1.length ≤ 1) :
    accountsAverage env r company year penult =
      ⟨([], none), [Event.fromSector company r.yamlFile]⟩ := by
  unfold accountsAverage
  simp only [if_pos h]

/-- C5: when the sector source returns at most one candidate, `accountsAverage`
returns a map without entries and a nil error, whatever the year, and its only
call to a collaborator is the one to the sector source. -/
theorem accountsAverage_few_candidates (env : Env) (r : report) (company : String)
    (year : Int) (penult : Bool)
    (h : (env.fromSector company r.yamlFile).1.length ≤ 1) :
    (accountsAverage env r company year penult).result = ([], none)
    ∧ (accountsAverage env r company year penult).trace =
        [Event.fromSector company r.yamlFile] := by
  rw [accountsAverage_few env r company year penult h]
  exact ⟨rfl, rfl⟩

/-- Witness of C5: a sector file with one name, and the year 10000. -/
theorem accountsAverage_few_candidates_witness :
    (soloEnv.fromSector "Petrobras" sampleReport.yamlFile).1.length ≤ 1
    ∧ (accountsAverage soloEnv sampleReport "Petrobras" 10000 true).result = ([], none)
    ∧ (accountsAverage soloEnv sampleReport "Petrobras" 10000 true).trace =
        [Event.fromSector "Petrobras" sampleReport.yamlFile] :=
  ⟨by decide,
    accountsAverage_few_candidates soloEnv sampleReport "Petrobras" 10000 true (by decide)⟩

/-- C6, as the claim states it, fails: the sector source fails and
`accountsAverage` returns a nil error. -/
theorem accountsAverage_sector_error_counterexample :
    (failingEnv.fromSector "ACME" sampleReport.yamlFile).2 ≠ none
    ∧ (accountsAverage failingEnv sampleReport "ACME" 2020 false).result.2 = none := by
  refine ⟨by decide, by rfl⟩

/-- C6, amended: the error of the sector source is discarded. Whether or not
the source fails, `accountsAverage` returns and calls what it does for the same
candidates handed over without an error; with at most one candidate that is an
empty map and a nil error. -/
theorem accountsAverage_sector_error (env : Env) (r : report) (company : String)
    (year : Int) (penult : Bool) :
    (accountsAverage env r company year penult).result =
        (accountsAverage { env with fromSector := fun c f => ((env.fromSector c f).1, none) }
          r company year penult).result
    ∧ (accountsAverage env r company year penult).trace =
        (accountsAverage { env with fromSector := fun c f => ((env.fromSector c f).1, none) }
          r company year penult).trace
    ∧ ((env.fromSector company r.yamlFile).1.length ≤ 1 →
        (accountsAverage env r company year penult).result = ([], none)) := by
  have hrun := accountsAverage_sector_blind env (fun c f => ((env.fromSector c f).1, none))
    r company year penult rfl
  refine ⟨by rw [hrun], by rw [hrun], ?_⟩
  intro h
  rw [accountsAverage_few env r company year penult h]

/-- Witness of the amended C6 on the failing sector source. -/
theorem accountsAverage_sector_error_witness :
    (failingEnv.fromSector "ACME" sampleReport.yamlFile).2 =
        some (GoError.external "open setores.yml: no such file")
    ∧ (failingEnv.fromSector "ACME" sampleReport.yamlFile).1.length ≤ 1
    ∧ (accountsAverage failingEnv sampleReport "ACME" 2020 false).result = ([], none) :=
  ⟨rfl, by decide,
    (accountsAverage_sector_error failingEnv sampleReport "ACME" 2020 false).2.2
      (by decide)⟩

theorem codeYear_invalid (year : Int) (penult : Bool)
    (hr : -2 ^ 63 ≤ year ∧ year < 2 ^ 63)
    (hbad : ¬ (1000 ≤ effectiveYear year penult ∧ effectiveYear year penult ≤ 9998)) :
    ¬ (1000 ≤ (if penult = true then wrapInt64 (year + 1) else year) ∧
      (if penult = true then wrapInt64 (year + 1) else year) ≤ 9998) := by
  unfold effectiveYear at hbad
  cases penult
  · simpa using hbad
  · simp only [if_true] at hbad ⊢
    unfold wrapInt64
    obtain ⟨hr1, hr2⟩ := hr
    norm_num at hr1 hr2 ⊢
    omega

theorem parse_invalid (Y : Int) (hbad : ¬ (1000 ≤ Y ∧ Y ≤ 9998)) :
    (∃ e, timeParse (sprintfJan1 Y) = Except.error e) ∨
    (∃ t e, timeParse (sprintfJan1 Y) = Except.ok t ∧
      timeParse (sprintfJan1 (wrapInt64 (Y + 1))) = Except.error e) := by
  cases hp : timeParse (sprintfJan1 Y) with
  | error e => exact Or.inl ⟨e, rfl⟩
  | ok t =>
    have hrange := timeParse_ok_range Y t hp
    have hY : Y = 9999 := by omega
    have hw : wrapInt64 (Y + 1) = 10000 := by
      rw [hY]
      rfl
    obtain ⟨e, he⟩ := timeParse_error_of_range 10000 (by omega)
    exact Or.inr ⟨t, e, rfl, by rw [hw, he]⟩

theorem accountsValues_invalid (r : report) (company : String) (year : Int) (penult : Bool)
    (hbad : ¬ (1000 ≤ (if penult = true then wrapInt64 (year + 1) else year) ∧
      (if penult = true then wrapInt64 (year + 1) else year) ≤ 9998)) :
    ∃ v y, accountsValues r company year penult =
      ⟨([], some (GoError.withMessage (GoError.parseError v)
        ("data invalida " ++ String.mk (fmtInt y)))), []⟩ := by
  rcases parse_invalid _ hbad with ⟨e, he⟩ | ⟨t, e, ht, he⟩
  · have hv := timeParse_error_eq _ _ he
    refine ⟨String.mk (sprintfJan1 (if penult = true then wrapInt64 (year + 1) else year)),
      (if penult = true then wrapInt64 (year + 1) else year), ?_⟩
    unfold accountsValues
    simp only [he, errorsWrap, hv]
  · have hv := timeParse_error_eq _ _ he
    refine ⟨String.mk (sprintfJan1
        (wrapInt64 ((if penult = true then wrapInt64 (year + 1) else year) + 1))),
      (if penult = true then wrapInt64 (year + 1) else year), ?_⟩
    unfold accountsValues
    simp only [ht, he, errorsWrap, hv]

theorem accountsAverage_invalid (env : Env) (r : report) (company : String) (year : Int)
    (penult : Bool) (com : List String)
    (hbad : ¬ (1000 ≤ (if penult = true then wrapInt64 (year + 1) else year) ∧
      (if penult = true then wrapInt64 (year + 1) else year) ≤ 9998))
    (hc : 2 ≤ (env.fromSector company r.yamlFile).1.length)
    (hl : r.db.listCompanies = Except.ok com)
    (hm : listedCompanies env com (env.fromSector company r.yamlFile).1 ≠ []) :
    ∃ v y, accountsAverage env r company year penult =
      ⟨([], some (GoError.withMessage (GoError.parseError v)
        ("data invalida " ++ String.mk (fmtInt y)))),
        [Event.fromSector company r.yamlFile, Event.listCompanies]⟩ := by
  have hc1 : ¬ (env.fromSector company r.yamlFile).1.length ≤ 1 := by omega
  have hm1 : ¬ (listedCompanies env com (env.fromSector company r.yamlFile).1).length = 0 := by
    simpa [List.length_eq_zero] using hm
  rcases parse_invalid _ hbad with ⟨e, he⟩ | ⟨t, e, ht, he⟩
  · have hv := timeParse_error_eq _ _ he
    refine ⟨String.mk (sprintfJan1 (if penult = true then wrapInt64 (year + 1) else year)),
      (if penult = true then wrapInt64 (year + 1) else year), ?_⟩
    unfold accountsAverage
    simp only [he, errorsWrap, hv, hl, if_neg hc1, if_neg hm1]
  · have hv := timeParse_error_eq _ _ he
    refine ⟨String.mk (sprintfJan1
        (wrapInt64 ((if penult = true then wrapInt64 (year + 1) else year) + 1))),
      (if penult = true then wrapInt64 (year + 1) else year), ?_⟩
    unfold accountsAverage
    simp only [ht, he, errorsWrap, hv, hl, if_neg hc1, if_neg hm1]

/-- C7: for a year of Go's `int` whose effective year lies outside 1000..9998,
so that 1 January of that year or of the next cannot be parsed, `accountsValues`
returns the wrapped parse error `data invalida ...` and calls nothing; and
`accountsAverage`, once it has matched at least one stored name, returns the
same kind of error and issues no query. -/
theorem invalid_period (env : Env) (r : report) (company : String) (year : Int)
    (penult : Bool) (hr : -2 ^ 63 ≤ year ∧ year < 2 ^ 63)
    (hbad : ¬ (1000 ≤ effectiveYear year penult ∧ effectiveYear year penult ≤ 9998)) :
    (∃ v y, (accountsValues r company year penult).result =
        ([], some (GoError.withMessage (GoError.parseError v)
          ("data invalida " ++ String.mk (fmtInt y)))))
    ∧ (accountsValues r company year penult).trace = []
    ∧ (∀ com : List String, 2 ≤ (env.fromSector company r.yamlFile).1.length →
        r.db.listCompanies = Except.ok com →
        listedCompanies env com (env.fromSector company r.yamlFile).1 ≠ [] →
        (∃ v y, (accountsAverage env r company year penult).result =
          ([], some (GoError.withMessage (GoError.parseError v)
            ("data invalida " ++ String.mk (fmtInt y)))))
        ∧ (accountsAverage env r company year penult).trace =
          [Event.fromSector company r.yamlFile, Event.listCompanies]) := by
  have hcode := codeYear_invalid year penult hr hbad
  obtain ⟨v, y, hv⟩ := accountsValues_invalid r company year penult hcode
  refine ⟨⟨v, y, by rw [hv]⟩, by rw [hv], ?_⟩
  intro com hc hl hm
  obtain ⟨v1, y1, ha⟩ := accountsAverage_invalid env r company year penult com hcode hc hl hm
  exact ⟨⟨v1, y1, by rw [ha]⟩, by rw [ha]⟩

/-- Witness of C7 for the year 10000. -/
theorem invalid_period_witness :
    (-2 ^ 63 ≤ (10000 : Int) ∧ (10000 : Int) < 2 ^ 63)
    ∧ ¬ (1000 ≤ effectiveYear 10000 false ∧ effectiveYear 10000 false ≤ 9998)
    ∧ (∃ v y, (accountsValues sampleReport "ACME" 10000 false).result =
        ([], some (GoError.withMessage (GoError.parseError v)
          ("data invalida " ++ String.mk (fmtInt y)))))
    ∧ (accountsValues sampleReport "ACME" 10000 false).trace = []
    ∧ (∃ v y, (accountsAverage latinEnv sampleReport "ACME" 10000 false).result =
        ([], some (GoError.withMessage (GoError.parseError v)
          ("data invalida " ++ String.mk (fmtInt y)))))
    ∧ (accountsAverage latinEnv sampleReport "ACME" 10000 false).trace =
        [Event.fromSector "ACME" "setores.yml", Event.listCompanies] :=
  ⟨by decide, by decide,
    (invalid_period latinEnv sampleReport "ACME" 10000 false (by decide) (by decide)).1,
    (invalid_period latinEnv sampleReport "ACME" 10000 false (by decide) (by decide)).2.1,
    (invalid_period latinEnv sampleReport "ACME" 10000 false (by decide) (by decide)).2.2
      ["ACME", "PETROBRAS", "VALE S.A."] (by decide) rfl (by decide)⟩

/-- C8, as the claim states it, fails: on a store whose statement cannot
execute, `accountsItems` does not return an error to its caller. -/
theorem accountsItems_query_error_counterexample :
    closedReport.db.queryErr (Query.selectItems "ACME") ≠ none
    ∧ ¬ ∃ items err trace,
        accountsItems closedReport "ACME" = Outcome.returned (items, some err) trace := by
  refine ⟨by decide, ?_⟩
  rintro ⟨items, err, trace, h⟩
  have hp : accountsItems closedReport "ACME" =
      Outcome.panicked (GoError.sql "sql: database is closed")
        [Event.query (Query.selectItems "ACME")] := rfl
  rw [hp] at h
  cases h

/-- C8, amended: if the statement cannot execute, `accountsItems` panics with
the error of the store and returns nothing; if it executes and yields no row,
`accountsItems` returns an empty list and a nil error. -/
theorem accountsItems_outcome (r : report) (company : String) :
    (∀ e, r.db.queryErr (Query.selectItems company) = some e →
      accountsItems r company = Outcome.panicked e [Event.query (Query.selectItems company)])
    ∧ (r.db.queryErr (Query.selectItems company) = none → r.db.items company = [] →
      accountsItems r company =
        Outcome.returned ([], none) [Event.query (Query.selectItems company)]) := by
  constructor
  · intro e he
    simp only [accountsItems, DB.selectItems, he]
  · intro hq hi
    simp only [accountsItems, DB.selectItems, hq, hi, scanItems]

/-- Witness of the amended C8: the closed store and the store without items. -/
theorem accountsItems_outcome_witness :
    closedReport.db.queryErr (Query.selectItems "ACME") =
        some (GoError.sql "sql: database is closed")
    ∧ accountsItems closedReport "ACME" =
        Outcome.panicked (GoError.sql "sql: database is closed")
          [Event.query (Query.selectItems "ACME")]
    ∧ sampleReport.db.queryErr (Query.selectItems "ACME") = none
    ∧ sampleReport.db.items "ACME" = []
    ∧ accountsItems sampleReport "ACME" =
        Outcome.returned ([], none) [Event.query (Query.selectItems "ACME")] :=
  ⟨rfl, (accountsItems_outcome closedReport "ACME").1 _ rfl, rfl, rfl,
    (accountsItems_outcome sampleReport "ACME").2 rfl rfl⟩

/-- The year check of `timeRange` never yields an error: once the statement
has executed, the error returned is nil. -/
theorem timeRange_error_nil (r : report) (h : r.db.queryErr Query.selectYears = none) :
    (timeRange r).result.2.2 = none := by
  unfold timeRange
  simp only [DB.selectYears, h]
  split_ifs <;> rfl

/-- C10: on an empty table the statement executes and both years are read as
0, outside 1900..2100, and `timeRange` returns 0, 0 and a nil error. -/
theorem timeRange_empty_table :
    emptyReport.db.queryErr Query.selectYears = none
    ∧ (timeRange emptyReport).result = (0, 0, none) := by
  exact ⟨rfl, rfl⟩

end Rapina
